import Mathlib

/-!
The program `sqvalid`: a shallow embedding of `main.go`

The program walks a directory tree with `filepath.WalkDir`, validates every
path ending in `.sql` with either the PostgreSQL parser or an in-memory SQLite
engine, prints a progress line per valid file and a failure report at the end.

What lives outside the repository is a parameter of the model:

* the file system (`Host`): `os.Lstat` of the root with the tree below it,
  `filepath.Join`, `os.ReadFile`;
* the PostgreSQL parser `pg_query.ParseToJSON` (`Env.pgParse`);
* the SQLite engine behind `database/sql` (`SqliteEngine`).

`filepath.WalkDir` itself is transcribed from the Go standard library
(`walkDir`, `walkEntries`, `WalkDir`), the callback and `main` from `main.go`.
Standard output is the list of strings written by the successive `Printf`
calls; the calls into the outside world are kept in a log (`State.log`).
Go strings are modelled by Lean strings (sequences of Unicode code points),
Go `int` counters by `Nat`.
-/

namespace Sqvalid

/-! ## Go string functions used by the program -/

/-- Go `strings.HasSuffix`. -/
def HasSuffix (s suffix : String) : Bool := suffix.data.isSuffixOf s.data

/-- Go `strings.HasPrefix`. -/
def HasPrefix (s pre : String) : Bool := pre.data.isPrefixOf s.data

/-- Go `unicode.IsSpace`: the Latin-1 spaces and the code points with the
Unicode White_Space property. -/
def isSpace (c : Char) : Bool :=
  let n := c.toNat
  n == 0x09 || n == 0x0A || n == 0x0B || n == 0x0C || n == 0x0D || n == 0x20 ||
  n == 0x85 || n == 0xA0 || n == 0x1680 || (0x2000 ≤ n && n ≤ 0x200A) ||
  n == 0x2028 || n == 0x2029 || n == 0x202F || n == 0x205F || n == 0x3000

/-- Go `strings.TrimSpace`: leading and trailing white space removed. -/
def TrimSpace (s : String) : String :=
  ⟨((s.data.dropWhile isSpace).reverse.dropWhile isSpace).reverse⟩

/-- Go `strings.ToUpper`, on the letters `a`..`z`. Code points outside ASCII are
left as they are: none of them has an upper case among the letters of `CREATE`,
`ALTER` and `DROP`, the only strings the result is compared with. -/
def ToUpper (s : String) : String := ⟨s.data.map Char.toUpper⟩

/-! ## The outside world -/

mutual
/-- A snapshot of a file-system object: a file with what `os.ReadFile` gives
for it (`none`: the read fails), or a directory with the outcome of
`os.ReadDir` (an optional error and the entries that were listed). -/
inductive Node where
  | file (content : Option String)
  | dir (readDirErr : Option String) (entries : Forest)
/-- The entries of a directory, in the order `os.ReadDir` lists them. -/
inductive Forest where
  | nil
  | cons (name : String) (node : Node) (rest : Forest)
end

/-- Go `fs.DirEntry`, reduced to `IsDir()`. -/
structure DirEntry where
  isDir : Bool
  deriving DecidableEq, Repr

/-- The errors a `fs.WalkDirFunc` deals in: the two sentinels of the walker and
I/O errors with their message. -/
inductive WalkError where
  | SkipDir
  | SkipAll
  | io (msg : String)
  deriving DecidableEq, Repr

/-- The file-system functions of the Go standard library the program calls. -/
structure Host where
  /-- Result of `os.Lstat` on the root: an error, or the tree found there. -/
  lstat : String → Except String Node
  /-- Go `filepath.Join` of a directory path and an entry name. -/
  join : String → String → String
  /-- Go `os.ReadFile`: the content, `none` when the read fails. -/
  readFile : String → Option String

/-- The SQLite engine reached through `database/sql`. A database is identified
with the list of statements executed on it so far (`[]`: a fresh one); every
function returns the error message of the call, `none` on success. -/
structure SqliteEngine where
  openErr : Option String
  execErr : List String → String → Option String
  prepareErr : List String → String → Option String

/-- Everything the program reaches outside itself. -/
structure Env where
  host : Host
  /-- The error of `pg_query.ParseToJSON`, `none` when the text parses. -/
  pgParse : String → Option String
  sqlite : SqliteEngine

/-- A call into the outside world. Database calls carry the database they are
issued against. -/
inductive Effect where
  | ReadFile (path : String)
  | PgParse (sqlStr : String)
  | SqlOpen
  | DbExec (db : List String) (sqlStr : String)
  | DbPrepare (db : List String) (sqlStr : String)
  | StmtClose
  | DbClose
  deriving DecidableEq, Repr

/-! ## `filepath.WalkDir` -/

mutual
/-- Go `filepath.walkDir`; `fn` is the callback, threaded through a state `σ`. -/
def walkDir {σ : Type} (join : String → String → String)
    (fn : σ → String → Option DirEntry → Option WalkError → σ × Option WalkError)
    (path : String) : Node → σ → σ × Option WalkError
  | .file _, st => fn st path (some ⟨false⟩) none
  | .dir readDirErr entries, st =>
    match fn st path (some ⟨true⟩) none with
    | (st1, some err) => (st1, if err = .SkipDir then none else some err)
    | (st1, none) =>
      match readDirErr with
      | some msg =>
        match fn st1 path (some ⟨true⟩) (some (.io msg)) with
        | (st2, some err) => (st2, if err = .SkipDir then none else some err)
        | (st2, none) => walkEntries join fn path entries st2
      | none => walkEntries join fn path entries st1
/-- The loop of `filepath.walkDir` over the entries of a directory. -/
def walkEntries {σ : Type} (join : String → String → String)
    (fn : σ → String → Option DirEntry → Option WalkError → σ × Option WalkError)
    (path : String) : Forest → σ → σ × Option WalkError
  | .nil, st => (st, none)
  | .cons name node rest, st =>
    match walkDir join fn (join path name) node st with
    | (st1, some err) => (st1, if err = .SkipDir then none else some err)
    | (st1, none) => walkEntries join fn path rest st1
end

/-- Go `filepath.WalkDir`. -/
def WalkDir {σ : Type} (host : Host)
    (fn : σ → String → Option DirEntry → Option WalkError → σ × Option WalkError)
    (root : String) (st : σ) : σ × Option WalkError :=
  let r := match host.lstat root with
    | .error msg => fn st root none (some (.io msg))
    | .ok node => walkDir host.join fn root node st
  match r with
  | (st1, some .SkipDir) => (st1, none)
  | (st1, some .SkipAll) => (st1, none)
  | other => other

/-! ## `main.go` -/

/-- Go `type sqlError struct`. -/
structure sqlError where
  path : String
  err : String
  deriving DecidableEq, Repr

/-- The first synthetic table of `validateSQLiteDirect`. -/
def usersDDL : String :=
  "CREATE TABLE users (id INTEGER PRIMARY KEY, name TEXT, email TEXT, active INTEGER)"

/-- The second synthetic table of `validateSQLiteDirect`. -/
def postsDDL : String :=
  "CREATE TABLE posts (id INTEGER PRIMARY KEY, user_id INTEGER, title TEXT)"

/-- Go `validateSQLiteDirect`: the returned error (`none` for `nil`) and the
calls made, in order. -/
def validateSQLiteDirect (E : SqliteEngine) (sqlStr : String) : Option String × List Effect :=
  match E.openErr with
  | some e => (some ("cannot open sqlite: " ++ e), [.SqlOpen])
  | none =>
    let upperSQL := ToUpper (TrimSpace sqlStr)
    if !HasPrefix upperSQL "CREATE" && !HasPrefix upperSQL "ALTER" && !HasPrefix upperSQL "DROP" then
      match E.execErr [] usersDDL with
      | some e => (some ("setup error: " ++ e), [.SqlOpen, .DbExec [] usersDDL, .DbClose])
      | none =>
        match E.execErr [usersDDL] postsDDL with
        | some e =>
          (some ("setup error: " ++ e),
            [.SqlOpen, .DbExec [] usersDDL, .DbExec [usersDDL] postsDDL, .DbClose])
        | none =>
          match E.prepareErr [usersDDL, postsDDL] sqlStr with
          | some e =>
            (some ("SQL error: " ++ e),
              [.SqlOpen, .DbExec [] usersDDL, .DbExec [usersDDL] postsDDL,
                .DbPrepare [usersDDL, postsDDL] sqlStr, .DbClose])
          | none =>
            (none,
              [.SqlOpen, .DbExec [] usersDDL, .DbExec [usersDDL] postsDDL,
                .DbPrepare [usersDDL, postsDDL] sqlStr, .StmtClose, .DbClose])
    else
      match E.prepareErr [] sqlStr with
      | some e => (some ("SQL error: " ++ e), [.SqlOpen, .DbPrepare [] sqlStr, .DbClose])
      | none => (none, [.SqlOpen, .DbPrepare [] sqlStr, .StmtClose, .DbClose])

/-- The variables of `main` the callback works on, standard output and the log
of outside calls. -/
structure State where
  validCount : Nat
  errors : List sqlError
  stdout : List String
  log : List Effect
  deriving DecidableEq, Repr

/-- The state `main` starts the walk in. -/
def State.init : State := ⟨0, [], [], []⟩

/-- The function literal `main` passes to `filepath.WalkDir`. -/
def walkFn (env : Env) (useSQLite : Bool) (st : State) (path : String)
    (_d : Option DirEntry) (err : Option WalkError) : State × Option WalkError :=
  match err with
  | some e => (st, some e)
  | none =>
    if !HasSuffix path ".sql" then (st, none)
    else
      match env.host.readFile path with
      | none =>
        ({ st with errors := st.errors ++ [⟨path, "failed to read"⟩],
                   log := st.log ++ [.ReadFile path] }, none)
      | some content =>
        let sqlStr := content
        let (validationErr, calls) :=
          if useSQLite then validateSQLiteDirect env.sqlite sqlStr
          else (env.pgParse sqlStr, [Effect.PgParse sqlStr])
        match validationErr with
        | some msg =>
          ({ st with errors := st.errors ++ [⟨path, msg⟩],
                     log := st.log ++ .ReadFile path :: calls }, none)
        | none =>
          ({ st with stdout := st.stdout ++ ["✓ " ++ path ++ "\n"],
                     validCount := st.validCount + 1,
                     log := st.log ++ .ReadFile path :: calls }, none)

/-- The two lines printed for one recorded failure, the output of
`fmt.Printf("✗ %s: invalid SQL\n  %s\n", sqlErr.path, sqlErr.err)`. -/
def failureLines (e : sqlError) : String :=
  "✗ " ++ e.path ++ ": invalid SQL\n  " ++ e.err ++ "\n"

/-- Go `main`, given the parsed `-sqlite` flag and the positional arguments:
the exit status and the final state. -/
def main (env : Env) (useSQLite : Bool) (args : List String) : Nat × State :=
  match args with
  | [] => (1, { State.init with stdout := ["Usage: sqlvalid [-sqlite] <directory>\n"] })
  | rootDir :: _ =>
    let st := (WalkDir env.host (walkFn env useSQLite) rootDir State.init).1
    if st.errors.length > 0 then
      (1, { st with stdout := st.stdout ++ ["\n"] ++ st.errors.map failureLines ++
              ["\n✗ " ++ toString st.errors.length ++ " SQL errors found\n"] })
    else
      (0, { st with stdout := st.stdout ++
              ["✓ All " ++ toString st.validCount ++ " SQL files validated\n"] })

/-! ## Notions the properties are stated with -/

/-- One invocation of the walk callback: the arguments it is given. -/
structure Visit where
  path : String
  d : Option DirEntry
  err : Option WalkError
  deriving DecidableEq, Repr

/-- A callback that only writes down its arguments and, like the one of `main`,
hands back the error it is given. -/
def record (vs : List Visit) (path : String) (d : Option DirEntry)
    (err : Option WalkError) : List Visit × Option WalkError :=
  (vs ++ [⟨path, d, err⟩], err)

/-- The invocations `filepath.WalkDir` makes of such a callback, in order. -/
def visits (host : Host) (root : String) : List Visit :=
  (WalkDir host record root []).1

/-- The invocations on which the callback of `main` goes on to `os.ReadFile`:
no walk error and a path ending in `.sql`. This is the test of the code, which
does not look at `d`: a directory with such a name passes it. -/
def Visit.isSql (v : Visit) : Bool := v.err.isNone && HasSuffix v.path ".sql"

/-- The paths the callback of `main` takes for `.sql` files, in the order of
the walk, directories with such a name included. -/
def discovered (host : Host) (root : String) : List String :=
  ((visits host root).filter Visit.isSql).map Visit.path

/-- The visit of a `.sql` file as the specification means it: no walk error, an
entry that is not a directory, and a name ending in `.sql`. -/
def Visit.isSqlFile (v : Visit) : Bool :=
  v.err.isNone && (match v.d with
    | some d => !d.isDir
    | none => false) && HasSuffix v.path ".sql"

/-- The `.sql` files of the tree in discovery order, directories left out. -/
def sqlFiles (host : Host) (root : String) : List String :=
  ((visits host root).filter Visit.isSqlFile).map Visit.path

/-- The error of the selected validator on a file content. -/
def validationErr (env : Env) (useSQLite : Bool) (content : String) : Option String :=
  if useSQLite then (validateSQLiteDirect env.sqlite content).1 else env.pgParse content

/-- The failure message of a `.sql` path, `none` when the file is readable and
accepted by the selected validator. -/
def failure (env : Env) (useSQLite : Bool) (path : String) : Option String :=
  match env.host.readFile path with
  | none => some "failed to read"
  | some content => validationErr env useSQLite content

/-- The path fails: it is unreadable or rejected by the selected validator. -/
def fails (env : Env) (useSQLite : Bool) (path : String) : Bool :=
  (failure env useSQLite path).isSome

/-- The state part of one callback invocation. -/
def step (env : Env) (useSQLite : Bool) (st : State) (v : Visit) : State :=
  (walkFn env useSQLite st v.path v.d v.err).1

/-- A callback instrumented to keep, after every invocation, its arguments and
the state it leaves. -/
def traced {σ : Type}
    (fn : σ → String → Option DirEntry → Option WalkError → σ × Option WalkError)
    (sh : σ × List (Visit × σ)) (path : String) (d : Option DirEntry)
    (err : Option WalkError) : (σ × List (Visit × σ)) × Option WalkError :=
  let r := fn sh.1 path d err
  ((r.1, sh.2 ++ [(⟨path, d, err⟩, r.1)]), r.2)

/-- The invocations of the callback of `main` during the walk, each with the
state it leaves. -/
def history (env : Env) (useSQLite : Bool) (root : String) : List (Visit × State) :=
  (WalkDir env.host (traced (walkFn env useSQLite)) root (State.init, [])).1.2

/-- The state after the first `k` invocations of a history. -/
def stateAfter (H : List (Visit × State)) : Nat → State
  | 0 => State.init
  | k + 1 => ((H.get? k).map Prod.snd).getD State.init

/-- The invocations of a list of visits from a state, each with the state it
leaves. -/
def trail (env : Env) (useSQLite : Bool) : State → List Visit → List (Visit × State)
  | _, [] => []
  | st, v :: vs => (v, step env useSQLite st v) :: trail env useSQLite (step env useSQLite st v) vs

/-- The test of `validateSQLiteDirect` for a schema statement. -/
def startsWithDDL (sqlStr : String) : Bool :=
  HasPrefix (ToUpper (TrimSpace sqlStr)) "CREATE" ||
  HasPrefix (ToUpper (TrimSpace sqlStr)) "ALTER" ||
  HasPrefix (ToUpper (TrimSpace sqlStr)) "DROP"

/-! ## A concrete world for the examples -/

/-- A `filepath.Join` for clean Unix paths. -/
def unixJoin (dir name : String) : String := dir ++ "/" ++ name

mutual
/-- What `os.ReadFile` gives for every path of a tree: the content of a file,
an error for a directory. -/
def Node.table (path : String) : Node → List (String × Option String)
  | .file content => [(path, content)]
  | .dir _ entries => (path, none) :: entries.table path
/-- The table of the entries of a directory. -/
def Forest.table (path : String) : Forest → List (String × Option String)
  | .nil => []
  | .cons name node rest => node.table (unixJoin path name) ++ rest.table path
end

/-- The host whose only tree is `tree`, found at `root`. -/
def hostOf (root : String) (tree : Node) : Host where
  lstat := fun p =>
    if p = root then .ok tree else .error ("lstat " ++ p ++ ": no such file or directory")
  join := unixJoin
  readFile := fun p => ((tree.table root).lookup p).join

/-- A stand-in for the PostgreSQL parser: a pure syntax check that knows three
statements. -/
def demoPg (sqlStr : String) : Option String :=
  if sqlStr = "SELECT 1;" ∨ sqlStr = "SELECT * FROM users WHERE active = 1" ∨
      sqlStr = "SELECT * FROM nonexistent_table" then none
  else some "syntax error at or near \"SELEC\""

/-- A stand-in for the SQLite engine: creating a table always succeeds, and a
statement is prepared against the tables created so far. -/
def demoSqlite : SqliteEngine where
  openErr := none
  execErr := fun _ _ => none
  prepareErr := fun db sqlStr =>
    if sqlStr = "SELECT 1;" then none
    else if sqlStr = "SELECT * FROM users WHERE active = 1" then
      if usersDDL ∈ db then none else some "no such table: users"
    else if sqlStr = "  create table t (id INTEGER)" then none
    else if sqlStr = "SELECT * FROM nonexistent_table" then
      some "no such table: nonexistent_table"
    else some "near \"SELEC\": syntax error"

/-- A SQLite engine on which creating the second synthetic table fails. -/
def brokenSqlite : SqliteEngine where
  openErr := none
  execErr := fun db _ => if db = [] then none else some "disk I/O error"
  prepareErr := fun _ _ => none

/-- The world of the examples over a tree found at `root`. -/
def demoEnv (root : String) (tree : Node) : Env where
  host := hostOf root tree
  pgParse := demoPg
  sqlite := demoSqlite

/-- A directory `d` with a valid file, an unreadable file, an invalid file, a
file that is not SQL and a sub-directory with one more valid file. -/
def demoTree : Node :=
  .dir none
    (.cons "a.sql" (.file (some "SELECT 1;"))
    (.cons "b.sql" (.file none)
    (.cons "c.sql" (.file (some "SELEC 1;"))
    (.cons "notes.txt" (.file (some "hello"))
    (.cons "sub" (.dir none (.cons "e.sql" (.file (some "SELECT 1;")) .nil))
    .nil)))))

/-- A directory `d` whose only `.sql` files are valid. -/
def validTree : Node :=
  .dir none
    (.cons "a.sql" (.file (some "SELECT 1;"))
    (.cons "notes.txt" (.file (some "hello"))
    (.cons "sub" (.dir none (.cons "e.sql" (.file (some "SELECT 1;")) .nil))
    .nil)))

/-- A directory `d` with files, none of them a `.sql` file. -/
def noSqlTree : Node :=
  .dir none
    (.cons "README.md" (.file (some "hello"))
    (.cons "query.SQL" (.file (some "SELECT 1;"))
    .nil))

/-- A directory `d` holding a directory named `x.sql` with a valid file in it. -/
def dirNamedSqlTree : Node :=
  .dir none
    (.cons "x.sql" (.dir none (.cons "a.sql" (.file (some "SELECT 1;")) .nil))
    .nil)

/-- A directory `d` with a file that is not SQL and an empty directory named
`x.sql`. -/
def emptyDirNamedSqlTree : Node :=
  .dir none
    (.cons "README.md" (.file (some "hello"))
    (.cons "x.sql" (.dir none .nil)
    .nil))

/-- A directory `d` with an invalid file and a directory named `x.sql` that
holds a valid file. -/
def mixedTree : Node :=
  .dir none
    (.cons "b.sql" (.file (some "SELEC 1;"))
    (.cons "x.sql" (.dir none (.cons "a.sql" (.file (some "SELECT 1;")) .nil))
    .nil))

/-- A directory `d` with a valid file, then a sub-directory that cannot be
listed, then one more valid file. -/
def unlistableTree : Node :=
  .dir none
    (.cons "a.sql" (.file (some "SELECT 1;"))
    (.cons "locked" (.dir (some "open d/locked: permission denied") .nil)
    (.cons "z.sql" (.file (some "SELECT 1;"))
    .nil)))

/-- Relation lifted to walker results: related states, equal errors. -/
def RelRes {σ τ : Type} (R : σ → τ → Prop) (a : σ × Option WalkError) (b : τ × Option WalkError) : Prop :=
  R a.1 b.1 ∧ a.2 = b.2

/-! ## Theorems -/

/-! ### The walker -/

mutual
theorem walkDir_sim {σ τ : Type} (join : String → String → String)
    (f : σ → String → Option DirEntry → Option WalkError → σ × Option WalkError)
    (g : τ → String → Option DirEntry → Option WalkError → τ × Option WalkError)
    (R : σ → τ → Prop)
    (h : ∀ s t p d e, R s t → RelRes R (f s p d e) (g t p d e)) :
    ∀ (n : Node) (path : String) (s : σ) (t : τ), R s t →
      RelRes R (walkDir join f path n s) (walkDir join g path n t)
  | .file _, path, s, t, hR => by
    simp only [walkDir]
    exact h s t path _ _ hR
  | .dir rde es, path, s, t, hR => by
    simp only [walkDir]
    obtain ⟨h1, h2⟩ := h s t path (some ⟨true⟩) none hR
    rcases hf : f s path (some ⟨true⟩) none with ⟨s1, e1⟩
    rcases hg : g t path (some ⟨true⟩) none with ⟨t1, e1'⟩
    rw [hf, hg] at h1 h2
    simp only at h1 h2
    subst h2
    cases e1 with
    | some err => exact ⟨h1, rfl⟩
    | none =>
      cases rde with
      | none => exact walkEntries_sim join f g R h es path s1 t1 h1
      | some msg =>
        simp only
        obtain ⟨h3, h4⟩ := h s1 t1 path (some ⟨true⟩) (some (.io msg)) h1
        rcases hf2 : f s1 path (some ⟨true⟩) (some (.io msg)) with ⟨s2, e2⟩
        rcases hg2 : g t1 path (some ⟨true⟩) (some (.io msg)) with ⟨t2, e2'⟩
        rw [hf2, hg2] at h3 h4
        simp only at h3 h4
        subst h4
        cases e2 with
        | some err => exact ⟨h3, rfl⟩
        | none => exact walkEntries_sim join f g R h es path s2 t2 h3
theorem walkEntries_sim {σ τ : Type} (join : String → String → String)
    (f : σ → String → Option DirEntry → Option WalkError → σ × Option WalkError)
    (g : τ → String → Option DirEntry → Option WalkError → τ × Option WalkError)
    (R : σ → τ → Prop)
    (h : ∀ s t p d e, R s t → RelRes R (f s p d e) (g t p d e)) :
    ∀ (es : Forest) (path : String) (s : σ) (t : τ), R s t →
      RelRes R (walkEntries join f path es s) (walkEntries join g path es t)
  | .nil, path, s, t, hR => by
    simp only [walkEntries]
    exact ⟨hR, rfl⟩
  | .cons name n rest, path, s, t, hR => by
    simp only [walkEntries]
    obtain ⟨h1, h2⟩ := walkDir_sim join f g R h n (join path name) s t hR
    rcases hf : walkDir join f (join path name) n s with ⟨s1, e1⟩
    rcases hg : walkDir join g (join path name) n t with ⟨t1, e1'⟩
    rw [hf, hg] at h1 h2
    simp only at h1 h2
    subst h2
    cases e1 with
    | some err => exact ⟨h1, rfl⟩
    | none => exact walkEntries_sim join f g R h rest path s1 t1 h1
end

theorem WalkDir_sim {σ τ : Type} (host : Host)
    (f : σ → String → Option DirEntry → Option WalkError → σ × Option WalkError)
    (g : τ → String → Option DirEntry → Option WalkError → τ × Option WalkError)
    (R : σ → τ → Prop)
    (h : ∀ s t p d e, R s t → RelRes R (f s p d e) (g t p d e))
    (root : String) (s : σ) (t : τ) (hR : R s t) :
    RelRes R (WalkDir host f root s) (WalkDir host g root t) := by
  unfold WalkDir
  cases hl : host.lstat root with
  | error msg =>
    simp only
    obtain ⟨h1, h2⟩ := h s t root none (some (.io msg)) hR
    rcases hf : f s root none (some (.io msg)) with ⟨s1, e1⟩
    rcases hg : g t root none (some (.io msg)) with ⟨t1, e1'⟩
    rw [hf, hg] at h1 h2
    simp only at h1 h2
    subst h2
    rcases e1 with _ | (_ | _ | _) <;> exact ⟨h1, rfl⟩
  | ok node =>
    simp only
    obtain ⟨h1, h2⟩ := walkDir_sim host.join f g R h node root s t hR
    rcases hf : walkDir host.join f root node s with ⟨s1, e1⟩
    rcases hg : walkDir host.join g root node t with ⟨t1, e1'⟩
    rw [hf, hg] at h1 h2
    simp only at h1 h2
    subst h2
    rcases e1 with _ | (_ | _ | _) <;> exact ⟨h1, rfl⟩


/-! ### One invocation of the callback -/

theorem walkFn_err (env : Env) (u : Bool) (st : State) (p : String) (d : Option DirEntry)
    (e : Option WalkError) : (walkFn env u st p d e).2 = e := by
  unfold walkFn
  cases e with
  | some e => rfl
  | none =>
    simp only
    split
    · rfl
    · split
      · rfl
      · split <;> rfl

theorem step_errors (env : Env) (u : Bool) (st : State) (v : Visit) :
    (step env u st v).errors = st.errors ++
      (if v.isSql then ((failure env u v.path).map (sqlError.mk v.path)).toList else []) := by
  obtain ⟨p, d, e⟩ := v
  unfold step walkFn Visit.isSql failure validationErr
  cases e with
  | some e => simp
  | none =>
    cases hs : HasSuffix p ".sql" with
    | false => simp
    | true =>
      cases hr : env.host.readFile p with
      | none => simp
      | some c =>
        cases u with
        | true =>
          cases hv : (validateSQLiteDirect env.sqlite c).1 <;> simp [hv]
        | false =>
          cases hv : env.pgParse c <;> simp [hv]


theorem step_validCount (env : Env) (u : Bool) (st : State) (v : Visit) :
    (step env u st v).validCount = st.validCount +
      (if v.isSql && !fails env u v.path then 1 else 0) := by
  obtain ⟨p, d, e⟩ := v
  unfold step walkFn Visit.isSql fails failure validationErr
  cases e with
  | some e => simp
  | none =>
    cases hs : HasSuffix p ".sql" with
    | false => simp
    | true =>
      cases hr : env.host.readFile p with
      | none => simp
      | some c =>
        cases u with
        | true =>
          cases hv : (validateSQLiteDirect env.sqlite c).1 <;> simp [hv]
        | false =>
          cases hv : env.pgParse c <;> simp [hv]

theorem step_stdout (env : Env) (u : Bool) (st : State) (v : Visit) :
    (step env u st v).stdout = st.stdout ++
      (if v.isSql && !fails env u v.path then ["✓ " ++ v.path ++ "\n"] else []) := by
  obtain ⟨p, d, e⟩ := v
  unfold step walkFn Visit.isSql fails failure validationErr
  cases e with
  | some e => simp
  | none =>
    cases hs : HasSuffix p ".sql" with
    | false => simp
    | true =>
      cases hr : env.host.readFile p with
      | none => simp
      | some c =>
        cases u with
        | true =>
          cases hv : (validateSQLiteDirect env.sqlite c).1 <;> simp [hv]
        | false =>
          cases hv : env.pgParse c <;> simp [hv]

/-! ### A whole walk -/

theorem foldl_step_errors (env : Env) (u : Bool) (vs : List Visit) (st : State) :
    (vs.foldl (step env u) st).errors = st.errors ++
      (((vs.filter Visit.isSql).map Visit.path).filterMap
        (fun p => (failure env u p).map (sqlError.mk p))) := by
  induction vs generalizing st with
  | nil => simp
  | cons v vs ih =>
    rw [List.foldl_cons, ih, step_errors]
    cases hv : v.isSql with
    | false => simp [hv]
    | true =>
      cases hf : failure env u v.path <;> simp [hv, hf]

theorem foldl_step_validCount (env : Env) (u : Bool) (vs : List Visit) (st : State) :
    (vs.foldl (step env u) st).validCount = st.validCount +
      ((((vs.filter Visit.isSql).map Visit.path).filter (fun p => !fails env u p)).length) := by
  induction vs generalizing st with
  | nil => simp
  | cons v vs ih =>
    rw [List.foldl_cons, ih, step_validCount]
    cases hv : v.isSql with
    | false => simp [hv]
    | true =>
      cases hf : fails env u v.path with
      | false => simp [hv, hf]; omega
      | true => simp [hv, hf]

theorem foldl_step_stdout (env : Env) (u : Bool) (vs : List Visit) (st : State) :
    (vs.foldl (step env u) st).stdout = st.stdout ++
      ((((vs.filter Visit.isSql).map Visit.path).filter (fun p => !fails env u p)).map
        (fun p => "✓ " ++ p ++ "\n")) := by
  induction vs generalizing st with
  | nil => simp
  | cons v vs ih =>
    rw [List.foldl_cons, ih, step_stdout]
    cases hv : v.isSql with
    | false => simp [hv]
    | true =>
      cases hf : fails env u v.path <;> simp [hv, hf]

theorem walk_eq_foldl (env : Env) (u : Bool) (root : String) (st0 : State) :
    (WalkDir env.host (walkFn env u) root st0).1 =
      (visits env.host root).foldl (step env u) st0 := by
  have h := WalkDir_sim env.host (walkFn env u) record
    (fun st vs => st = vs.foldl (step env u) st0)
    (by
      intro s t p d e hR
      refine ⟨?_, ?_⟩
      · simp only [record, List.foldl_append, List.foldl_cons, List.foldl_nil, ← hR]
        rfl
      · rw [walkFn_err]; rfl)
    root st0 [] rfl
  exact h.1

theorem walk_errors (env : Env) (u : Bool) (root : String) :
    (WalkDir env.host (walkFn env u) root State.init).1.errors =
      (discovered env.host root).filterMap (fun p => (failure env u p).map (sqlError.mk p)) := by
  rw [walk_eq_foldl, foldl_step_errors]
  simp [State.init, discovered]

theorem walk_validCount (env : Env) (u : Bool) (root : String) :
    (WalkDir env.host (walkFn env u) root State.init).1.validCount =
      ((discovered env.host root).filter (fun p => !fails env u p)).length := by
  rw [walk_eq_foldl, foldl_step_validCount]
  simp [State.init, discovered]

theorem walk_stdout (env : Env) (u : Bool) (root : String) :
    (WalkDir env.host (walkFn env u) root State.init).1.stdout =
      ((discovered env.host root).filter (fun p => !fails env u p)).map
        (fun p => "✓ " ++ p ++ "\n") := by
  rw [walk_eq_foldl, foldl_step_stdout]
  simp [State.init, discovered]

theorem errors_map_path (env : Env) (u : Bool) (ps : List String) :
    (ps.filterMap (fun p => (failure env u p).map (sqlError.mk p))).map sqlError.path =
      ps.filter (fails env u) := by
  induction ps with
  | nil => rfl
  | cons p ps ih =>
    cases hf : failure env u p with
    | none => simp [List.filterMap_cons, List.filter_cons, fails, hf, ih]
    | some m => simp [List.filterMap_cons, List.filter_cons, fails, hf, ih]


theorem main_failed (env : Env) (u : Bool) (root : String) (rest : List String)
    (hne : (WalkDir env.host (walkFn env u) root State.init).1.errors ≠ []) :
    main env u (root :: rest) =
      (1, { (WalkDir env.host (walkFn env u) root State.init).1 with
            stdout := (WalkDir env.host (walkFn env u) root State.init).1.stdout ++ ["\n"] ++
              (WalkDir env.host (walkFn env u) root State.init).1.errors.map failureLines ++
              ["\n✗ " ++ toString
                (WalkDir env.host (walkFn env u) root State.init).1.errors.length ++
                " SQL errors found\n"] }) := by
  have hpos : (WalkDir env.host (walkFn env u) root State.init).1.errors.length > 0 :=
    List.length_pos.mpr hne
  simp only [main, hpos, if_true]

theorem main_passed (env : Env) (u : Bool) (root : String) (rest : List String)
    (hnil : (WalkDir env.host (walkFn env u) root State.init).1.errors = []) :
    main env u (root :: rest) =
      (0, { (WalkDir env.host (walkFn env u) root State.init).1 with
            stdout := (WalkDir env.host (walkFn env u) root State.init).1.stdout ++
              ["✓ All " ++ toString
                (WalkDir env.host (walkFn env u) root State.init).1.validCount ++
                " SQL files validated\n"] }) := by
  simp only [main, hnil, List.length_nil, gt_iff_lt, lt_self_iff_false, if_false]

/-! ### The claims on a whole run -/

/-- What the code records: when at least one of the paths the callback takes for
a `.sql` file fails (unreadable, or rejected by the selected validator), `main`
exits with status 1 and the recorded failures are the failing ones among those
paths with their messages, in the order of the walk; a failing path is there as
often as it was met, which is once when the paths are pairwise distinct, and a
passing path never. The paths are those of `discovered`, directories named like
a `.sql` file included. -/
theorem run_failures_exact (env : Env) (useSQLite : Bool) (root : String) (rest : List String)
    (hfail : ∃ p ∈ discovered env.host root, fails env useSQLite p = true) :
    (main env useSQLite (root :: rest)).1 = 1 ∧
    (main env useSQLite (root :: rest)).2.errors =
      (discovered env.host root).filterMap
        (fun p => (failure env useSQLite p).map (sqlError.mk p)) ∧
    (main env useSQLite (root :: rest)).2.errors.map sqlError.path =
      (discovered env.host root).filter (fails env useSQLite) ∧
    (∀ p, fails env useSQLite p = true →
      ((main env useSQLite (root :: rest)).2.errors.map sqlError.path).count p =
        (discovered env.host root).count p) ∧
    ((discovered env.host root).Nodup →
      ∀ p ∈ discovered env.host root, fails env useSQLite p = true →
        ((main env useSQLite (root :: rest)).2.errors.map sqlError.path).count p = 1) ∧
    (∀ p, fails env useSQLite p = false →
      p ∉ (main env useSQLite (root :: rest)).2.errors.map sqlError.path) ∧
    ((main env useSQLite (root :: rest)).2.errors.map sqlError.path).Sublist
      (discovered env.host root) ∧
    (∀ p, fails env useSQLite p = true ↔
      (env.host.readFile p = none ∨
        ∃ c, env.host.readFile p = some c ∧ validationErr env useSQLite c ≠ none)) := by
  have herr := walk_errors env useSQLite root
  have hpaths : (WalkDir env.host (walkFn env useSQLite) root State.init).1.errors.map
      sqlError.path = (discovered env.host root).filter (fails env useSQLite) := by
    rw [herr, errors_map_path]
  have hne : (WalkDir env.host (walkFn env useSQLite) root State.init).1.errors ≠ [] := by
    obtain ⟨p, hp, hf⟩ := hfail
    have hmem : p ∈ (WalkDir env.host (walkFn env useSQLite) root State.init).1.errors.map
        sqlError.path := by
      rw [hpaths]; exact List.mem_filter.mpr ⟨hp, hf⟩
    intro hnil
    rw [hnil] at hmem
    simp at hmem
  rw [main_failed env useSQLite root rest hne]
  refine ⟨rfl, herr, hpaths, ?_, ?_, ?_, ?_, ?_⟩
  · intro p hf
    simp only [hpaths]
    exact List.count_filter hf
  · intro hnodup p hp hf
    simp only [hpaths]
    exact List.count_eq_one_of_mem (hnodup.filter _) (List.mem_filter.mpr ⟨hp, hf⟩)
  · intro p hf hmem
    simp only [hpaths] at hmem
    have := (List.mem_filter.mp hmem).2
    rw [hf] at this
    exact Bool.false_ne_true this
  · simp only [hpaths]
    exact List.filter_sublist _
  · intro p
    unfold fails failure
    cases hr : env.host.readFile p with
    | none => simp
    | some c => simp [Option.isSome_iff_ne_none]

/-- The directory `d` with an unreadable and an invalid file. -/
theorem run_failures_exact_example :
    (main (demoEnv "d" demoTree) false ["d"]).1 = 1 ∧
    (main (demoEnv "d" demoTree) false ["d"]).2.errors =
      [⟨"d/b.sql", "failed to read"⟩, ⟨"d/c.sql", "syntax error at or near \"SELEC\""⟩] ∧
    ((main (demoEnv "d" demoTree) false ["d"]).2.errors.map sqlError.path).count "d/c.sql" = 1 :=
  have h := run_failures_exact (demoEnv "d" demoTree) false "d" []
    ⟨"d/b.sql", by decide, by decide⟩
  ⟨h.1, h.2.1.trans (by decide), h.2.2.2.2.1 (by decide) "d/c.sql" (by decide) (by decide)⟩

/-- What the code reports when nothing fails: when every path the callback takes
for a `.sql` file is readable and accepted by the selected validator (no such
path included), `main` exits with status 0, `validCount` is the number of these
paths, nothing is recorded as a failure, and the last thing written is the line
`✓ All <validCount> SQL files validated`. The paths are those of `discovered`:
a directory named like a `.sql` file is one of them and cannot be read. -/
theorem run_all_pass (env : Env) (useSQLite : Bool) (root : String) (rest : List String)
    (hall : ∀ p ∈ discovered env.host root, fails env useSQLite p = false) :
    (main env useSQLite (root :: rest)).1 = 0 ∧
    (main env useSQLite (root :: rest)).2.validCount = (discovered env.host root).length ∧
    (main env useSQLite (root :: rest)).2.errors = [] ∧
    (main env useSQLite (root :: rest)).2.stdout.getLast? =
      some ("✓ All " ++ toString (discovered env.host root).length ++ " SQL files validated\n") ∧
    (discovered env.host root = [] →
      (main env useSQLite (root :: rest)).2.stdout = ["✓ All 0 SQL files validated\n"]) ∧
    (∀ p, fails env useSQLite p = false ↔
      ∃ c, env.host.readFile p = some c ∧ validationErr env useSQLite c = none) := by
  have hfilter : (discovered env.host root).filter (fun p => !fails env useSQLite p) =
      discovered env.host root := by
    apply List.filter_eq_self.mpr
    intro p hp
    simp [hall p hp]
  have herr : (WalkDir env.host (walkFn env useSQLite) root State.init).1.errors = [] := by
    rw [walk_errors]
    apply List.filterMap_eq_nil_iff.mpr
    intro p hp
    have := hall p hp
    unfold fails at this
    cases hf : failure env useSQLite p with
    | none => rfl
    | some m => rw [hf] at this; simp at this
  have hvc := walk_validCount env useSQLite root
  rw [hfilter] at hvc
  have hout := walk_stdout env useSQLite root
  rw [hfilter] at hout
  have hmain : main env useSQLite (root :: rest) =
      (0, { (WalkDir env.host (walkFn env useSQLite) root State.init).1 with
            stdout := (WalkDir env.host (walkFn env useSQLite) root State.init).1.stdout ++
              ["✓ All " ++ toString
                (WalkDir env.host (walkFn env useSQLite) root State.init).1.validCount ++
                " SQL files validated\n"] }) := by
    simp only [main, herr, List.length_nil, gt_iff_lt, lt_self_iff_false, if_false]
  rw [hmain]
  refine ⟨rfl, hvc, herr, ?_, ?_, ?_⟩
  · simp only [hvc, List.getLast?_append, List.getLast?_singleton]
    rfl
  · intro hnil
    simp only [hvc, hout, hnil, List.map_nil, List.nil_append, List.length_nil]
    rfl
  · intro p
    unfold fails failure
    cases hr : env.host.readFile p with
    | none => simp
    | some c => simp

/-- The directory `d` with two valid files, one of them in a
sub-directory, and a file that is not SQL; and a directory with no `.sql` file
at all. -/
theorem run_all_pass_example :
    (main (demoEnv "d" validTree) false ["d"]).1 = 0 ∧
    (main (demoEnv "d" validTree) false ["d"]).2.validCount = 2 ∧
    (main (demoEnv "d" validTree) false ["d"]).2.stdout.getLast? =
      some "✓ All 2 SQL files validated\n" ∧
    (main (demoEnv "d" noSqlTree) false ["d"]).1 = 0 ∧
    (main (demoEnv "d" noSqlTree) false ["d"]).2.stdout = ["✓ All 0 SQL files validated\n"] :=
  have h := run_all_pass (demoEnv "d" validTree) false "d" [] (by decide)
  have h0 := run_all_pass (demoEnv "d" noSqlTree) false "d" [] (by decide)
  ⟨h.1, h.2.1.trans (by decide), h.2.2.2.1.trans (by decide), h0.1, h0.2.2.2.2.1 (by decide)⟩

/-- C7: the standard output of a run over a directory is the progress lines
`✓ <path>` of the valid discovered files in discovery order, followed, when
failures were recorded, by an empty line, the two lines `✗ <path>: invalid SQL`
and `  <message>` of every failure in recorded order, an empty line and
`✗ <N> SQL errors found` with `N` the number of failures, the exit status being
1; and otherwise by the single line `✓ All <validCount> SQL files validated`,
the exit status being 0. Every progress line comes before the report. -/
theorem C7_output_format (env : Env) (useSQLite : Bool) (root : String) (rest : List String) :
    (main env useSQLite (root :: rest)).2.errors =
      (discovered env.host root).filterMap
        (fun p => (failure env useSQLite p).map (sqlError.mk p)) ∧
    (main env useSQLite (root :: rest)).2.validCount =
      ((discovered env.host root).filter (fun p => !fails env useSQLite p)).length ∧
    (main env useSQLite (root :: rest)).2.stdout =
      ((discovered env.host root).filter (fun p => !fails env useSQLite p)).map
          (fun p => "✓ " ++ p ++ "\n") ++
        (if (main env useSQLite (root :: rest)).2.errors = [] then
          ["✓ All " ++ toString (main env useSQLite (root :: rest)).2.validCount ++
            " SQL files validated\n"]
        else
          ["\n"] ++
          (main env useSQLite (root :: rest)).2.errors.map
            (fun e => "✗ " ++ e.path ++ ": invalid SQL\n  " ++ e.err ++ "\n") ++
          ["\n✗ " ++ toString (main env useSQLite (root :: rest)).2.errors.length ++
            " SQL errors found\n"]) ∧
    (main env useSQLite (root :: rest)).1 =
      (if (main env useSQLite (root :: rest)).2.errors = [] then 0 else 1) := by
  have herr := walk_errors env useSQLite root
  have hvc := walk_validCount env useSQLite root
  have hout := walk_stdout env useSQLite root
  by_cases hnil : (WalkDir env.host (walkFn env useSQLite) root State.init).1.errors = []
  · rw [main_passed env useSQLite root rest hnil]
    simp only [hnil, if_true]
    refine ⟨?_, hvc, ?_, trivial⟩
    · rw [← herr, hnil]
    · rw [hout]
  · rw [main_failed env useSQLite root rest hnil]
    simp only [hnil, if_false]
    refine ⟨herr, hvc, ?_, trivial⟩
    rw [hout]
    simp only [List.append_assoc]
    rfl


/-! ### The states during the walk -/

theorem trail_append (env : Env) (u : Bool) (vs : List Visit) (v : Visit) (st : State) :
    trail env u st (vs ++ [v]) =
      trail env u st vs ++ [(v, step env u (vs.foldl (step env u) st) v)] := by
  induction vs generalizing st with
  | nil => rfl
  | cons w vs ih =>
    show (w, step env u st w) :: trail env u (step env u st w) (vs ++ [v]) = _
    rw [ih]
    rfl

theorem history_eq_trail (env : Env) (u : Bool) (root : String) :
    history env u root = trail env u State.init (visits env.host root) := by
  have h := WalkDir_sim env.host (traced (walkFn env u)) record
    (fun sh vs => sh.1 = vs.foldl (step env u) State.init ∧ sh.2 = trail env u State.init vs)
    (by
      intro s t p d e hR
      obtain ⟨h1, h2⟩ := hR
      refine ⟨⟨?_, ?_⟩, ?_⟩
      · simp only [traced, record, List.foldl_append, List.foldl_cons, List.foldl_nil, ← h1]
        rfl
      · simp only [traced, record, trail_append, ← h1, h2]
        rfl
      · simp only [traced, record, walkFn_err])
    root (State.init, []) [] ⟨rfl, rfl⟩
  exact h.1.2

theorem trail_get_snd (env : Env) (u : Bool) (vs : List Visit) (st : State) (k : Nat)
    (hk : k < vs.length) :
    ((trail env u st vs).get? k).map Prod.snd = some ((vs.take (k + 1)).foldl (step env u) st) := by
  induction vs generalizing st k with
  | nil => simp at hk
  | cons v vs ih =>
    cases k with
    | zero => simp [trail]
    | succ k =>
      simp only [List.length_cons, Nat.add_lt_add_iff_right] at hk
      simpa [trail] using ih (step env u st v) k hk

theorem stateAfter_trail (env : Env) (u : Bool) (vs : List Visit) (k : Nat)
    (hk : k ≤ vs.length) :
    stateAfter (trail env u State.init vs) k = (vs.take k).foldl (step env u) State.init := by
  cases k with
  | zero => rfl
  | succ k =>
    show ((List.get? (trail env u State.init vs) k).map Prod.snd).getD State.init = _
    rw [trail_get_snd env u vs State.init k hk]
    rfl

theorem trail_length (env : Env) (u : Bool) (vs : List Visit) (st : State) :
    (trail env u st vs).length = vs.length := by
  induction vs generalizing st with
  | nil => rfl
  | cons v vs ih => simp [trail, ih]

theorem trail_map_fst (env : Env) (u : Bool) (vs : List Visit) (st : State) :
    (trail env u st vs).map Prod.fst = vs := by
  induction vs generalizing st with
  | nil => rfl
  | cons v vs ih => simp [trail, ih]

theorem step_count (env : Env) (u : Bool) (st : State) (v : Visit) :
    (step env u st v).validCount + (step env u st v).errors.length =
      st.validCount + st.errors.length + (if v.isSql then 1 else 0) := by
  rw [step_validCount, step_errors]
  cases hv : v.isSql with
  | false => simp
  | true =>
    unfold fails
    cases hf : failure env u v.path with
    | none => simp; omega
    | some m => simp; omega

theorem foldl_step_count (env : Env) (u : Bool) (vs : List Visit) (st : State) :
    (vs.foldl (step env u) st).validCount + (vs.foldl (step env u) st).errors.length =
      st.validCount + st.errors.length + (vs.filter Visit.isSql).length := by
  induction vs generalizing st with
  | nil => simp
  | cons v vs ih =>
    rw [List.foldl_cons, ih, step_count]
    cases hv : v.isSql with
    | false => simp [hv]
    | true => simp [hv]; omega

theorem step_cases (env : Env) (u : Bool) (st : State) (v : Visit) :
    if v.isSql then
      ((step env u st v).validCount = st.validCount + 1 ∧
        (step env u st v).errors = st.errors) ∨
      ((step env u st v).validCount = st.validCount ∧
        ∃ e, (step env u st v).errors = st.errors ++ [e])
    else
      (step env u st v).validCount = st.validCount ∧ (step env u st v).errors = st.errors := by
  rw [step_validCount, step_errors]
  cases hv : v.isSql with
  | false => simp
  | true =>
    unfold fails
    cases hf : failure env u v.path with
    | none => simp
    | some m => simp

/-- What the code counts: at every point of the walk, that is after each
invocation of the callback and at the end, `validCount + len(errors)` is the
number of invocations so far that passed the test `Visit.isSql`, directories
named like a `.sql` file included; such an invocation either adds one to
`validCount` and leaves `errors` as it is, or appends one failure and leaves
`validCount` as it is, and any other invocation changes neither. -/
theorem run_count_invariant (env : Env) (useSQLite : Bool) (root : String) :
    (history env useSQLite root).map Prod.fst = visits env.host root ∧
    stateAfter (history env useSQLite root) (history env useSQLite root).length =
      (WalkDir env.host (walkFn env useSQLite) root State.init).1 ∧
    (∀ k, k ≤ (history env useSQLite root).length →
      (stateAfter (history env useSQLite root) k).validCount +
        (stateAfter (history env useSQLite root) k).errors.length =
      (((visits env.host root).take k).filter Visit.isSql).length) ∧
    (∀ k v, (visits env.host root).get? k = some v →
      if v.isSql then
        ((stateAfter (history env useSQLite root) (k + 1)).validCount =
            (stateAfter (history env useSQLite root) k).validCount + 1 ∧
          (stateAfter (history env useSQLite root) (k + 1)).errors =
            (stateAfter (history env useSQLite root) k).errors) ∨
        ((stateAfter (history env useSQLite root) (k + 1)).validCount =
            (stateAfter (history env useSQLite root) k).validCount ∧
          ∃ e, (stateAfter (history env useSQLite root) (k + 1)).errors =
            (stateAfter (history env useSQLite root) k).errors ++ [e])
      else
        (stateAfter (history env useSQLite root) (k + 1)).validCount =
            (stateAfter (history env useSQLite root) k).validCount ∧
          (stateAfter (history env useSQLite root) (k + 1)).errors =
            (stateAfter (history env useSQLite root) k).errors) := by
  rw [history_eq_trail]
  refine ⟨trail_map_fst _ _ _ _, ?_, ?_, ?_⟩
  · rw [trail_length, stateAfter_trail _ _ _ _ (le_refl _), List.take_length, walk_eq_foldl]
  · intro k hk
    rw [trail_length] at hk
    rw [stateAfter_trail _ _ _ _ hk, foldl_step_count]
    simp [State.init]
  · intro k v hv
    have hlt : k < (visits env.host root).length := by
      rcases Nat.lt_or_ge k (visits env.host root).length with h | h
      · exact h
      · rw [List.get?_eq_none.mpr h] at hv; cases hv
    rw [stateAfter_trail _ _ _ _ hlt, stateAfter_trail _ _ _ _ (Nat.le_of_lt hlt)]
    have htake : (visits env.host root).take (k + 1) = (visits env.host root).take k ++ [v] := by
      rw [List.take_succ, ← List.get?_eq_getElem?, hv]
      rfl
    rw [htake, List.foldl_append]
    exact step_cases env useSQLite _ v

/-- On the directory `d`: after the first four invocations (the
root, a valid file, an unreadable one, an invalid one) three `.sql` paths are
processed, one counted valid and two recorded; the fourth invocation appended a
failure. -/
theorem run_count_invariant_example :
    (stateAfter (history (demoEnv "d" demoTree) false "d") 4).validCount +
      (stateAfter (history (demoEnv "d" demoTree) false "d") 4).errors.length = 3 ∧
    (stateAfter (history (demoEnv "d" demoTree) false "d") 4).validCount = 1 ∧
    (stateAfter (history (demoEnv "d" demoTree) false "d") 3).errors.length = 1 :=
  ⟨((run_count_invariant (demoEnv "d" demoTree) false "d").2.2.1 4 (by decide)).trans (by decide),
   by decide, by decide⟩


/-! ### One file -/

theorem discovered_hasSuffix (host : Host) (root : String) (p : String)
    (hp : p ∈ discovered host root) : HasSuffix p ".sql" = true := by
  unfold discovered at hp
  obtain ⟨v, hv, rfl⟩ := List.mem_map.mp hp
  have := (List.mem_filter.mp hv).2
  unfold Visit.isSql at this
  exact (Bool.and_eq_true_iff.mp this).2

theorem validateSQLiteDirect_no_pg (E : SqliteEngine) (sqlStr s : String) :
    Effect.PgParse s ∉ (validateSQLiteDirect E sqlStr).2 := by
  unfold validateSQLiteDirect
  cases E.openErr with
  | some e => simp
  | none =>
    simp only
    split
    · cases E.execErr [] usersDDL with
      | some e => simp
      | none =>
        cases E.execErr [usersDDL] postsDDL with
        | some e => simp
        | none =>
          cases E.prepareErr [usersDDL, postsDDL] sqlStr <;> simp
    · cases E.prepareErr [] sqlStr <;> simp

/-- C5: for a discovered `.sql` path whose content cannot be read, the callback
appends the one failure `(path, "failed to read")`, makes no call besides the
read (no validator is called), changes nothing else and returns no error, so
the walk goes on; the run exits with status 1, every failure recorded for that
path has the message `failed to read`, and every readable discovered file the
validator accepts has its line `✓ <path>` on standard output and is counted in
`validCount`. -/
theorem C5_unreadable_file (env : Env) (useSQLite : Bool) (root : String) (rest : List String)
    (p : String) (hp : p ∈ discovered env.host root) (hread : env.host.readFile p = none) :
    (∀ st d, walkFn env useSQLite st p d none =
      ({ st with errors := st.errors ++ [⟨p, "failed to read"⟩],
                 log := st.log ++ [Effect.ReadFile p] }, none)) ∧
    (main env useSQLite (root :: rest)).1 = 1 ∧
    (⟨p, "failed to read"⟩ : sqlError) ∈ (main env useSQLite (root :: rest)).2.errors ∧
    (∀ e ∈ (main env useSQLite (root :: rest)).2.errors, e.path = p → e.err = "failed to read") ∧
    ((main env useSQLite (root :: rest)).2.errors.map sqlError.path).count p =
      (discovered env.host root).count p ∧
    (∀ q ∈ discovered env.host root, fails env useSQLite q = false →
      "✓ " ++ q ++ "\n" ∈ (main env useSQLite (root :: rest)).2.stdout) ∧
    (main env useSQLite (root :: rest)).2.validCount =
      ((discovered env.host root).filter (fun q => !fails env useSQLite q)).length := by
  have hsql := discovered_hasSuffix env.host root p hp
  have hfailure : failure env useSQLite p = some "failed to read" := by
    unfold failure; rw [hread]
  have herr := walk_errors env useSQLite root
  have hmem : (⟨p, "failed to read"⟩ : sqlError) ∈
      (WalkDir env.host (walkFn env useSQLite) root State.init).1.errors := by
    rw [herr]
    exact List.mem_filterMap.mpr ⟨p, hp, by rw [hfailure]; rfl⟩
  have hne : (WalkDir env.host (walkFn env useSQLite) root State.init).1.errors ≠ [] :=
    List.ne_nil_of_mem hmem
  rw [main_failed env useSQLite root rest hne]
  refine ⟨?_, rfl, hmem, ?_, ?_, ?_, walk_validCount env useSQLite root⟩
  · intro st d
    simp only [walkFn, hsql, hread, Bool.not_true, Bool.false_eq_true, if_false]
  · intro e he hpath
    simp only [herr] at he
    obtain ⟨q, _, hq⟩ := List.mem_filterMap.mp he
    cases hf : failure env useSQLite q with
    | none => rw [hf] at hq; cases hq
    | some m =>
      rw [hf] at hq
      simp only [Option.map_some', Option.some.injEq] at hq
      subst hq
      simp only at hpath
      subst hpath
      rw [hfailure] at hf
      exact (Option.some.inj hf).symm
  · simp only [herr, errors_map_path]
    rw [List.count_filter]
    unfold fails
    rw [hfailure]
    rfl
  · intro q hq hpass
    simp only [walk_stdout, List.append_assoc]
    apply List.mem_append_left
    apply List.mem_map.mpr
    exact ⟨q, List.mem_filter.mpr ⟨hq, by simp [hpass]⟩, rfl⟩

/-- Witness of C5: `d/b.sql` cannot be read; its neighbours `d/a.sql` and
`d/sub/e.sql` are valid and get their lines. -/
theorem C5_unreadable_file_witness :
    (main (demoEnv "d" demoTree) false ["d"]).1 = 1 ∧
    (⟨"d/b.sql", "failed to read"⟩ : sqlError) ∈ (main (demoEnv "d" demoTree) false ["d"]).2.errors ∧
    "✓ d/sub/e.sql\n" ∈ (main (demoEnv "d" demoTree) false ["d"]).2.stdout ∧
    (main (demoEnv "d" demoTree) false ["d"]).2.validCount = 2 :=
  have h := C5_unreadable_file (demoEnv "d" demoTree) false "d" [] "d/b.sql" (by decide) (by decide)
  ⟨h.2.1, h.2.2.1, h.2.2.2.2.2.1 "d/sub/e.sql" (by decide) (by decide),
    h.2.2.2.2.2.2.trans (by decide)⟩

/-- C10: for a readable `.sql` file the callback reads the file and calls one
validator, chosen by `useSQLite` alone, once, on the content as read. Without
the flag the only call is `pg_query.ParseToJSON`; the file is counted valid and
gets its line when the parser returns no error, and is recorded with the
parser's message otherwise. With the flag the calls are those of
`validateSQLiteDirect` on the content, the PostgreSQL parser is not among them,
and the outcome is its return value. No error is returned to the walker. -/
theorem C10_validator_dispatch (env : Env) (useSQLite : Bool) (st : State) (path : String)
    (d : Option DirEntry) (content : String)
    (hsql : HasSuffix path ".sql" = true) (hread : env.host.readFile path = some content) :
    (walkFn env useSQLite st path d none).2 = none ∧
    (walkFn env useSQLite st path d none).1.log =
      st.log ++ Effect.ReadFile path ::
        (if useSQLite then (validateSQLiteDirect env.sqlite content).2
         else [Effect.PgParse content]) ∧
    (∀ s, Effect.PgParse s ∉ (validateSQLiteDirect env.sqlite content).2) ∧
    validationErr env false content = env.pgParse content ∧
    validationErr env true content = (validateSQLiteDirect env.sqlite content).1 ∧
    (validationErr env useSQLite content = none →
      (walkFn env useSQLite st path d none).1.validCount = st.validCount + 1 ∧
      (walkFn env useSQLite st path d none).1.errors = st.errors ∧
      (walkFn env useSQLite st path d none).1.stdout = st.stdout ++ ["✓ " ++ path ++ "\n"]) ∧
    (∀ msg, validationErr env useSQLite content = some msg →
      (walkFn env useSQLite st path d none).1.validCount = st.validCount ∧
      (walkFn env useSQLite st path d none).1.errors = st.errors ++ [⟨path, msg⟩] ∧
      (walkFn env useSQLite st path d none).1.stdout = st.stdout) := by
  refine ⟨walkFn_err _ _ _ _ _ _, ?_, fun s => validateSQLiteDirect_no_pg _ _ s, rfl, rfl, ?_, ?_⟩
  · cases useSQLite with
    | true =>
      simp only [walkFn, hsql, hread, Bool.not_true, Bool.false_eq_true, if_false, if_true]
      cases (validateSQLiteDirect env.sqlite content).1 <;> rfl
    | false =>
      simp only [walkFn, hsql, hread, Bool.not_true, Bool.false_eq_true, if_false]
      cases env.pgParse content <;> rfl
  · intro hv
    cases useSQLite with
    | true =>
      simp only [validationErr, if_true] at hv
      simp only [walkFn, hsql, hread, Bool.not_true, Bool.false_eq_true, if_false, if_true, hv,
        and_self]
    | false =>
      simp only [validationErr, Bool.false_eq_true, if_false] at hv
      simp only [walkFn, hsql, hread, Bool.not_true, Bool.false_eq_true, if_false, hv, and_self]
  · intro msg hv
    cases useSQLite with
    | true =>
      simp only [validationErr, if_true] at hv
      simp only [walkFn, hsql, hread, Bool.not_true, Bool.false_eq_true, if_false, if_true, hv,
        and_self]
    | false =>
      simp only [validationErr, Bool.false_eq_true, if_false] at hv
      simp only [walkFn, hsql, hread, Bool.not_true, Bool.false_eq_true, if_false, hv, and_self]

/-- Witness of C10: the same file content is accepted by the PostgreSQL
stand-in and rejected under `-sqlite`, where the table it names is unknown. -/
theorem C10_validator_dispatch_witness :
    (walkFn (demoEnv "d" (.dir none (.cons "q.sql"
        (.file (some "SELECT * FROM nonexistent_table")) .nil))) false State.init
        "d/q.sql" (some ⟨false⟩) none).1.validCount = 1 ∧
    (walkFn (demoEnv "d" (.dir none (.cons "q.sql"
        (.file (some "SELECT * FROM nonexistent_table")) .nil))) true State.init
        "d/q.sql" (some ⟨false⟩) none).1.errors =
      [⟨"d/q.sql", "SQL error: no such table: nonexistent_table"⟩] :=
  ⟨((C10_validator_dispatch (demoEnv "d" (.dir none (.cons "q.sql"
        (.file (some "SELECT * FROM nonexistent_table")) .nil))) false State.init
        "d/q.sql" (some ⟨false⟩) "SELECT * FROM nonexistent_table"
        (by decide) (by decide)).2.2.2.2.2.1 (by decide)).1,
   ((C10_validator_dispatch (demoEnv "d" (.dir none (.cons "q.sql"
        (.file (some "SELECT * FROM nonexistent_table")) .nil))) true State.init
        "d/q.sql" (some ⟨false⟩) "SELECT * FROM nonexistent_table"
        (by decide) (by decide)).2.2.2.2.2.2 "SQL error: no such table: nonexistent_table"
        (by decide)).2.1⟩

/-! ### The keyword test -/

theorem isSpace_letter (n : Nat) (h1 : 97 ≤ n) (h2 : n ≤ 122) :
    isSpace (Char.ofNat (n - 32)) = false := by
  interval_cases n <;> rfl

theorem isSpace_toUpper (c : Char) : isSpace c.toUpper = isSpace c := by
  unfold Char.toUpper
  by_cases h : c.toNat ≥ 97 ∧ c.toNat ≤ 122
  · simp only [h, and_self, if_true]
    rw [isSpace_letter c.toNat h.1 h.2]
    symm
    unfold isSpace
    simp only [Bool.or_eq_false_iff, Bool.and_eq_false_imp, decide_eq_true_eq,
      decide_eq_false_iff_not, beq_eq_false_iff_ne, ne_eq]
    omega
  · simp only [h, if_false]

theorem dropWhile_isSpace_map (l : List Char) :
    (l.map Char.toUpper).dropWhile isSpace = (l.dropWhile isSpace).map Char.toUpper := by
  have hcomp : isSpace ∘ Char.toUpper = isSpace := funext isSpace_toUpper
  rw [List.dropWhile_map, hcomp]

theorem ToUpper_TrimSpace (s : String) : ToUpper (TrimSpace s) = TrimSpace (ToUpper s) := by
  unfold ToUpper TrimSpace
  simp only [dropWhile_isSpace_map, ← List.map_reverse]

theorem startsWithDDL_eq (s : String) :
    startsWithDDL s =
      (HasPrefix (TrimSpace (ToUpper s)) "CREATE" || HasPrefix (TrimSpace (ToUpper s)) "ALTER" ||
        HasPrefix (TrimSpace (ToUpper s)) "DROP") := by
  unfold startsWithDDL
  rw [ToUpper_TrimSpace]

theorem dropWhile_isSpace_append (ws l : List Char) (h : ∀ c ∈ ws, isSpace c = true) :
    (ws ++ l).dropWhile isSpace = l.dropWhile isSpace := by
  induction ws with
  | nil => rfl
  | cons c ws ih =>
    have hc := h c (List.mem_cons_self _ _)
    rw [List.cons_append, List.dropWhile_cons, hc]
    exact ih (fun x hx => h x (List.mem_cons_of_mem _ hx))

theorem TrimSpace_leading (ws s : String) (h : ∀ c ∈ ws.data, isSpace c = true) :
    TrimSpace (ws ++ s) = TrimSpace s := by
  unfold TrimSpace
  rw [String.data_append, dropWhile_isSpace_append ws.data s.data h]

/-! ### `validateSQLiteDirect` -/

theorem usersDDL_startsWithDDL : HasPrefix (ToUpper (TrimSpace usersDDL)) "CREATE" = true := by
  decide

theorem postsDDL_startsWithDDL : HasPrefix (ToUpper (TrimSpace postsDDL)) "CREATE" = true := by
  decide

theorem validateSQLiteDirect_ddl (E : SqliteEngine) (s : String) (hopen : E.openErr = none)
    (h : startsWithDDL s = true) :
    validateSQLiteDirect E s =
      match E.prepareErr [] s with
      | some e => (some ("SQL error: " ++ e), [.SqlOpen, .DbPrepare [] s, .DbClose])
      | none => (none, [.SqlOpen, .DbPrepare [] s, .StmtClose, .DbClose]) := by
  unfold startsWithDDL at h
  have hc : (!HasPrefix (ToUpper (TrimSpace s)) "CREATE" &&
      !HasPrefix (ToUpper (TrimSpace s)) "ALTER" &&
      !HasPrefix (ToUpper (TrimSpace s)) "DROP") = false := by
    revert h
    cases HasPrefix (ToUpper (TrimSpace s)) "CREATE" <;>
      cases HasPrefix (ToUpper (TrimSpace s)) "ALTER" <;>
      cases HasPrefix (ToUpper (TrimSpace s)) "DROP" <;> simp
  simp only [validateSQLiteDirect, hopen, hc, Bool.false_eq_true, if_false]

theorem validateSQLiteDirect_dml (E : SqliteEngine) (s : String) (hopen : E.openErr = none)
    (h : startsWithDDL s = false) :
    validateSQLiteDirect E s =
      match E.execErr [] usersDDL with
      | some e => (some ("setup error: " ++ e), [.SqlOpen, .DbExec [] usersDDL, .DbClose])
      | none =>
        match E.execErr [usersDDL] postsDDL with
        | some e =>
          (some ("setup error: " ++ e),
            [.SqlOpen, .DbExec [] usersDDL, .DbExec [usersDDL] postsDDL, .DbClose])
        | none =>
          match E.prepareErr [usersDDL, postsDDL] s with
          | some e =>
            (some ("SQL error: " ++ e),
              [.SqlOpen, .DbExec [] usersDDL, .DbExec [usersDDL] postsDDL,
                .DbPrepare [usersDDL, postsDDL] s, .DbClose])
          | none =>
            (none,
              [.SqlOpen, .DbExec [] usersDDL, .DbExec [usersDDL] postsDDL,
                .DbPrepare [usersDDL, postsDDL] s, .StmtClose, .DbClose]) := by
  unfold startsWithDDL at h
  have hc : (!HasPrefix (ToUpper (TrimSpace s)) "CREATE" &&
      !HasPrefix (ToUpper (TrimSpace s)) "ALTER" &&
      !HasPrefix (ToUpper (TrimSpace s)) "DROP") = true := by
    revert h
    cases HasPrefix (ToUpper (TrimSpace s)) "CREATE" <;>
      cases HasPrefix (ToUpper (TrimSpace s)) "ALTER" <;>
      cases HasPrefix (ToUpper (TrimSpace s)) "DROP" <;> simp
  simp only [validateSQLiteDirect, hopen, hc, if_true]

theorem ne_ddl_of_dml (s : String) (h : startsWithDDL s = false) :
    s ≠ usersDDL ∧ s ≠ postsDDL := by
  constructor
  · rintro rfl
    unfold startsWithDDL at h
    rw [usersDDL_startsWithDDL] at h
    simp at h
  · rintro rfl
    unfold startsWithDDL at h
    rw [postsDDL_startsWithDDL] at h
    simp at h

/-- C8: in `validateSQLiteDirect`, whenever a statement is prepared it is the
text as given, neither trimmed nor upper-cased, and it is prepared against the
empty database when the trimmed, upper-cased text starts with `CREATE`, `ALTER`
or `DROP`, and otherwise against the database in which the table `users` and
then the table `posts`, with the two fixed definitions, were created. Tables
are created for the other texts only, these two, in that order. Once the
database is open the calls are, for a schema statement, the preparation alone,
and otherwise the two creations followed by the preparation, which is reached
when both creations succeed. The test ignores leading white space and the case
of the letters. -/
theorem C8_synthetic_tables (E : SqliteEngine) (s : String) :
    usersDDL =
      "CREATE TABLE users (id INTEGER PRIMARY KEY, name TEXT, email TEXT, active INTEGER)" ∧
    postsDDL = "CREATE TABLE posts (id INTEGER PRIMARY KEY, user_id INTEGER, title TEXT)" ∧
    (∀ db x, Effect.DbPrepare db x ∈ (validateSQLiteDirect E s).2 →
      x = s ∧ db = if startsWithDDL s then [] else [usersDDL, postsDDL]) ∧
    (∀ db x, Effect.DbExec db x ∈ (validateSQLiteDirect E s).2 →
      startsWithDDL s = false ∧
        ((db = [] ∧ x = usersDDL) ∨ (db = [usersDDL] ∧ x = postsDDL))) ∧
    (E.openErr = none → startsWithDDL s = true →
      (validateSQLiteDirect E s).2 =
        [.SqlOpen, .DbPrepare [] s] ++
          (if E.prepareErr [] s = none then [.StmtClose, .DbClose] else [.DbClose])) ∧
    (E.openErr = none → startsWithDDL s = false →
      (validateSQLiteDirect E s).2 =
        if E.execErr [] usersDDL ≠ none then [.SqlOpen, .DbExec [] usersDDL, .DbClose]
        else if E.execErr [usersDDL] postsDDL ≠ none then
          [.SqlOpen, .DbExec [] usersDDL, .DbExec [usersDDL] postsDDL, .DbClose]
        else
          [.SqlOpen, .DbExec [] usersDDL, .DbExec [usersDDL] postsDDL,
            .DbPrepare [usersDDL, postsDDL] s] ++
            (if E.prepareErr [usersDDL, postsDDL] s = none then [.StmtClose, .DbClose]
             else [.DbClose])) ∧
    (∀ ws : String, (∀ c ∈ ws.data, isSpace c = true) →
      startsWithDDL (ws ++ s) = startsWithDDL s) ∧
    (∀ t, ToUpper t = ToUpper s → startsWithDDL t = startsWithDDL s) := by
  refine ⟨rfl, rfl, ?_, ?_, ?_, ?_, ?_, ?_⟩
  · intro db x hmem
    cases hopen : E.openErr with
    | some e0 =>
      simp only [validateSQLiteDirect, hopen] at hmem
      simp at hmem
    | none =>
      cases h : startsWithDDL s with
      | true =>
        rw [validateSQLiteDirect_ddl E s hopen h] at hmem
        cases hp : E.prepareErr [] s <;> rw [hp] at hmem <;> simp at hmem <;>
          simp [hmem.1, hmem.2]
      | false =>
        rw [validateSQLiteDirect_dml E s hopen h] at hmem
        cases h1 : E.execErr [] usersDDL with
        | some e => rw [h1] at hmem; simp at hmem
        | none =>
          rw [h1] at hmem
          cases h2 : E.execErr [usersDDL] postsDDL with
          | some e => rw [h2] at hmem; simp at hmem
          | none =>
            rw [h2] at hmem
            cases hp : E.prepareErr [usersDDL, postsDDL] s <;> rw [hp] at hmem <;>
              simp at hmem <;> simp [hmem.1, hmem.2]
  · intro db x hmem
    cases hopen : E.openErr with
    | some e0 =>
      simp only [validateSQLiteDirect, hopen] at hmem
      simp at hmem
    | none =>
      cases h : startsWithDDL s with
      | true =>
        rw [validateSQLiteDirect_ddl E s hopen h] at hmem
        cases hp : E.prepareErr [] s <;> rw [hp] at hmem <;> simp at hmem
      | false =>
        refine ⟨rfl, ?_⟩
        rw [validateSQLiteDirect_dml E s hopen h] at hmem
        cases h1 : E.execErr [] usersDDL with
        | some e =>
          rw [h1] at hmem
          exact Or.inl (by simpa using hmem)
        | none =>
          rw [h1] at hmem
          cases h2 : E.execErr [usersDDL] postsDDL with
          | some e => rw [h2] at hmem; simpa using hmem
          | none =>
            rw [h2] at hmem
            cases hp : E.prepareErr [usersDDL, postsDDL] s <;> rw [hp] at hmem <;>
              simpa using hmem
  · intro hopen h
    rw [validateSQLiteDirect_ddl E s hopen h]
    cases E.prepareErr [] s <;> simp
  · intro hopen h
    rw [validateSQLiteDirect_dml E s hopen h]
    cases E.execErr [] usersDDL with
    | some e => simp
    | none =>
      cases E.execErr [usersDDL] postsDDL with
      | some e => simp
      | none => cases E.prepareErr [usersDDL, postsDDL] s <;> simp
  · intro ws hws
    unfold startsWithDDL
    rw [TrimSpace_leading ws s hws]
  · intro t ht
    rw [startsWithDDL_eq, startsWithDDL_eq, ht]

/-- Witness of C8: a lower-case `create table` after two blanks is prepared as
given against the empty database; a `SELECT` is prepared after the two tables
were created. -/
theorem C8_synthetic_tables_witness :
    (validateSQLiteDirect demoSqlite "  create table t (id INTEGER)").2 =
      [.SqlOpen, .DbPrepare [] "  create table t (id INTEGER)", .StmtClose, .DbClose] ∧
    (validateSQLiteDirect demoSqlite "SELECT * FROM users WHERE active = 1").2 =
      [.SqlOpen, .DbExec [] usersDDL, .DbExec [usersDDL] postsDDL,
        .DbPrepare [usersDDL, postsDDL] "SELECT * FROM users WHERE active = 1",
        .StmtClose, .DbClose] ∧
    startsWithDDL " \t\ndrop table t" = startsWithDDL "drop table t" :=
  ⟨((C8_synthetic_tables demoSqlite "  create table t (id INTEGER)").2.2.2.2.1
      (by decide) (by decide)).trans (by decide),
   ((C8_synthetic_tables demoSqlite "SELECT * FROM users WHERE active = 1").2.2.2.2.2.1
      (by decide) (by decide)).trans (by decide),
   (C8_synthetic_tables demoSqlite "drop table t").2.2.2.2.2.2.1 " \t\n" (by decide)⟩

/-- C9: `validateSQLiteDirect` returns no error exactly when the text was
prepared against the database of the call and the preparation succeeded. A
failed preparation is returned as `SQL error: ` followed by the cause, a failed
creation of a synthetic table as `setup error: ` followed by the cause, a failed
opening as `cannot open sqlite: ` followed by the cause. The only statements
executed are the two table definitions; the text itself is never executed. -/
theorem C9_sqlite_result (E : SqliteEngine) (s : String) :
    ((validateSQLiteDirect E s).1 = none ↔
      ∃ db, Effect.DbPrepare db s ∈ (validateSQLiteDirect E s).2 ∧ E.prepareErr db s = none) ∧
    (∀ db e, Effect.DbPrepare db s ∈ (validateSQLiteDirect E s).2 → E.prepareErr db s = some e →
      (validateSQLiteDirect E s).1 = some ("SQL error: " ++ e)) ∧
    (∀ db ddl e, Effect.DbExec db ddl ∈ (validateSQLiteDirect E s).2 →
      E.execErr db ddl = some e →
      (validateSQLiteDirect E s).1 = some ("setup error: " ++ e)) ∧
    (∀ e, E.openErr = some e →
      validateSQLiteDirect E s = (some ("cannot open sqlite: " ++ e), [.SqlOpen])) ∧
    (∀ db ddl, Effect.DbExec db ddl ∈ (validateSQLiteDirect E s).2 →
      ddl = usersDDL ∨ ddl = postsDDL) ∧
    (∀ db, Effect.DbExec db s ∉ (validateSQLiteDirect E s).2) := by
  cases hopen : E.openErr with
  | some e0 =>
    have hv : validateSQLiteDirect E s = (some ("cannot open sqlite: " ++ e0), [.SqlOpen]) := by
      simp only [validateSQLiteDirect, hopen]
    rw [hv]
    simp
  | none =>
    cases h : startsWithDDL s with
    | true =>
      rw [validateSQLiteDirect_ddl E s hopen h]
      cases hp : E.prepareErr [] s with
      | none =>
        simp only [List.mem_cons, Effect.DbPrepare.injEq, and_true, reduceCtorEq, false_or,
          or_false, List.mem_singleton, List.not_mem_nil, true_iff, forall_eq, false_imp_iff,
          implies_true, not_false_eq_true, IsEmpty.forall_iff]
        refine ⟨⟨[], rfl, hp⟩, ?_⟩
        rintro db e rfl he
        rw [hp] at he
        cases he
      | some e =>
        simp only [List.mem_cons, Effect.DbPrepare.injEq, and_true, reduceCtorEq, false_or,
          or_false, List.mem_singleton, List.not_mem_nil, false_iff, not_exists, not_and,
          Option.some.injEq, false_imp_iff, implies_true, not_false_eq_true, and_true,
          IsEmpty.forall_iff]
        refine ⟨?_, ?_⟩
        · rintro db rfl he
          rw [hp] at he
          cases he
        · rintro db e1 rfl he
          rw [hp] at he
          cases he
          rfl
    | false =>
      obtain ⟨hne1, hne2⟩ := ne_ddl_of_dml s h
      rw [validateSQLiteDirect_dml E s hopen h]
      cases h1 : E.execErr [] usersDDL with
      | some e =>
        simp only [List.mem_cons, reduceCtorEq, Effect.DbExec.injEq, false_or, or_false,
          List.not_mem_nil, false_iff, not_exists, not_and, false_and, false_imp_iff,
          implies_true, IsEmpty.forall_iff, true_and, Option.some.injEq, hne1,
          and_false, not_false_eq_true, and_true]
        refine ⟨?_, ?_⟩
        · rintro db ddl e1 ⟨rfl, rfl⟩ he
          rw [h1] at he
          cases he
          rfl
        · rintro db ddl ⟨_, rfl⟩
          exact Or.inl rfl
      | none =>
        cases h2 : E.execErr [usersDDL] postsDDL with
        | some e =>
          simp only [List.mem_cons, reduceCtorEq, Effect.DbExec.injEq, false_or, or_false,
            List.not_mem_nil, false_iff, not_exists, not_and, false_and, false_imp_iff,
            implies_true, IsEmpty.forall_iff, true_and, Option.some.injEq, hne1, hne2,
            and_false, not_false_eq_true, and_true]
          refine ⟨?_, ?_⟩
          · rintro db ddl e1 (⟨rfl, rfl⟩ | ⟨rfl, rfl⟩) he
            · rw [h1] at he; cases he
            · rw [h2] at he; cases he; rfl
          · rintro db ddl (⟨_, rfl⟩ | ⟨_, rfl⟩)
            · exact Or.inl rfl
            · exact Or.inr rfl
        | none =>
          cases hp : E.prepareErr [usersDDL, postsDDL] s with
          | none =>
            simp only [List.mem_cons, reduceCtorEq, Effect.DbExec.injEq, Effect.DbPrepare.injEq,
              false_or, or_false, List.not_mem_nil, true_iff, and_true, false_and,
              false_imp_iff, implies_true, IsEmpty.forall_iff, hne1, hne2, and_false,
              not_false_eq_true, true_and]
            refine ⟨⟨_, rfl, hp⟩, ?_, ?_, ?_⟩
            · rintro db e rfl he
              rw [hp] at he; cases he
            · rintro db ddl e1 (⟨rfl, rfl⟩ | ⟨rfl, rfl⟩) he
              · rw [h1] at he; cases he
              · rw [h2] at he; cases he
            · rintro db ddl (⟨_, rfl⟩ | ⟨_, rfl⟩)
              · exact Or.inl rfl
              · exact Or.inr rfl
          | some e =>
            simp only [List.mem_cons, reduceCtorEq, Effect.DbExec.injEq, Effect.DbPrepare.injEq,
              false_or, or_false, List.not_mem_nil, false_iff, not_exists, not_and, and_true,
              false_and, false_imp_iff, implies_true, IsEmpty.forall_iff, hne1, hne2,
              and_false, not_false_eq_true, true_and, Option.some.injEq]
            refine ⟨?_, ?_, ?_, ?_⟩
            · rintro db rfl he
              rw [hp] at he; cases he
            · rintro db e1 rfl he
              rw [hp] at he; cases he; rfl
            · rintro db ddl e1 (⟨rfl, rfl⟩ | ⟨rfl, rfl⟩) he
              · rw [h1] at he; cases he
              · rw [h2] at he; cases he
            · rintro db ddl (⟨_, rfl⟩ | ⟨_, rfl⟩)
              · exact Or.inl rfl
              · exact Or.inr rfl

/-- Witness of C9: a statement on an unknown table is returned as an
`SQL error`; on an engine where the second table cannot be created the result
is a `setup error`. -/
theorem C9_sqlite_result_witness :
    (validateSQLiteDirect demoSqlite "SELECT * FROM nonexistent_table").1 =
      some "SQL error: no such table: nonexistent_table" ∧
    (validateSQLiteDirect brokenSqlite "SELECT 1;").1 = some "setup error: disk I/O error" :=
  ⟨((C9_sqlite_result demoSqlite "SELECT * FROM nonexistent_table").2.1 [usersDDL, postsDDL]
      "no such table: nonexistent_table" (by decide) (by decide)).trans (by decide),
   ((C9_sqlite_result brokenSqlite "SELECT 1;").2.2.1 [usersDDL] postsDDL "disk I/O error"
      (by decide) (by decide)).trans (by decide)⟩


/-! ### Runs the walk does not complete, and directories named like SQL files -/

/-- C3, evaluated: the walk of a root that does not exist stops at the first
invocation with the error of `os.Lstat`, the walk of `d` stops at the
sub-directory that cannot be listed, before `d/z.sql` is reached; in both runs
`main` prints that all files were validated and exits with status 0. -/
theorem C3_walk_error_exits_zero :
    visits (hostOf "d" demoTree) "nosuchdir" =
      [⟨"nosuchdir", none, some (.io "lstat nosuchdir: no such file or directory")⟩] ∧
    (WalkDir (hostOf "d" demoTree) (walkFn (demoEnv "d" demoTree) false) "nosuchdir"
      State.init).2 = some (.io "lstat nosuchdir: no such file or directory") ∧
    main (demoEnv "d" demoTree) false ["nosuchdir"] =
      (0, ⟨0, [], ["✓ All 0 SQL files validated\n"], []⟩) ∧
    (visits (hostOf "d" unlistableTree) "d").map Visit.path =
      ["d", "d/a.sql", "d/locked", "d/locked"] ∧
    (WalkDir (hostOf "d" unlistableTree) (walkFn (demoEnv "d" unlistableTree) false) "d"
      State.init).2 = some (.io "open d/locked: permission denied") ∧
    main (demoEnv "d" unlistableTree) false ["d"] =
      (0, ⟨1, [], ["✓ d/a.sql\n", "✓ All 1 SQL files validated\n"],
        [.ReadFile "d/a.sql", .PgParse "SELECT 1;"]⟩) := by
  decide

/-- C4, evaluated: in the directory `d` the sub-directory `x.sql` is visited as
a directory, read as if it were a file and recorded as the failure
`failed to read`; the walk still enters it and validates `d/x.sql/a.sql`; the
run exits with status 1. -/
theorem C4_directory_named_sql_is_recorded :
    visits (hostOf "d" dirNamedSqlTree) "d" =
      [⟨"d", some ⟨true⟩, none⟩, ⟨"d/x.sql", some ⟨true⟩, none⟩,
        ⟨"d/x.sql/a.sql", some ⟨false⟩, none⟩] ∧
    main (demoEnv "d" dirNamedSqlTree) false ["d"] =
      (1, ⟨1, [⟨"d/x.sql", "failed to read"⟩],
        ["✓ d/x.sql/a.sql\n", "\n", "✗ d/x.sql: invalid SQL\n  failed to read\n",
          "\n✗ 1 SQL errors found\n"],
        [.ReadFile "d/x.sql", .ReadFile "d/x.sql/a.sql", .PgParse "SELECT 1;"]⟩) := by
  decide

/-! ### The `.sql` files of the tree against the paths the code processes -/

/-- Where no directory is named like a `.sql` file, the paths the callback
processes are the `.sql` files of the tree. -/
theorem discovered_eq_sqlFiles (host : Host) (root : String)
    (h : ∀ v ∈ visits host root, v.isSql = true → ∃ d, v.d = some d ∧ d.isDir = false) :
    discovered host root = sqlFiles host root := by
  unfold discovered sqlFiles
  congr 1
  apply List.filter_congr
  intro v hv
  cases hs : v.isSql with
  | false =>
    unfold Visit.isSql at hs
    unfold Visit.isSqlFile
    rcases Bool.and_eq_false_iff.mp hs with h1 | h1 <;> simp [h1]
  | true =>
    obtain ⟨d, hd, hdir⟩ := h v hv hs
    unfold Visit.isSql at hs
    unfold Visit.isSqlFile
    obtain ⟨h1, h2⟩ := Bool.and_eq_true_iff.mp hs
    simp [h1, h2, hd, hdir]

/-- C1, evaluated: in the directory `d` with the invalid file `b.sql` and the
directory `x.sql` holding the valid file `a.sql`, the `.sql` files are
`d/b.sql` and `d/x.sql/a.sql` and the only one that fails is `d/b.sql`; the run
exits with status 1 but records two failures, the second one for the directory
`d/x.sql`, which is no `.sql` file. -/
theorem C1_directory_among_failures :
    sqlFiles (hostOf "d" mixedTree) "d" = ["d/b.sql", "d/x.sql/a.sql"] ∧
    (sqlFiles (hostOf "d" mixedTree) "d").filter (fails (demoEnv "d" mixedTree) false) =
      ["d/b.sql"] ∧
    (main (demoEnv "d" mixedTree) false ["d"]).1 = 1 ∧
    (main (demoEnv "d" mixedTree) false ["d"]).2.errors =
      [⟨"d/b.sql", "syntax error at or near \"SELEC\""⟩, ⟨"d/x.sql", "failed to read"⟩] ∧
    (main (demoEnv "d" mixedTree) false ["d"]).2.errors.map sqlError.path ≠
      (sqlFiles (hostOf "d" mixedTree) "d").filter (fails (demoEnv "d" mixedTree) false) := by
  decide

/-- C2, evaluated: the directory `d` with `README.md` and an empty directory
`x.sql` has no `.sql` file, and the directory `d` whose directory `x.sql` holds
the valid `a.sql` has one `.sql` file, which is valid; both runs record the
directory as a failure, end with the line `✗ 1 SQL errors found` and exit with
status 1. -/
theorem C2_directory_fails_valid_run :
    sqlFiles (hostOf "d" emptyDirNamedSqlTree) "d" = [] ∧
    main (demoEnv "d" emptyDirNamedSqlTree) false ["d"] =
      (1, ⟨0, [⟨"d/x.sql", "failed to read"⟩],
        ["\n", "✗ d/x.sql: invalid SQL\n  failed to read\n", "\n✗ 1 SQL errors found\n"],
        [.ReadFile "d/x.sql"]⟩) ∧
    sqlFiles (hostOf "d" dirNamedSqlTree) "d" = ["d/x.sql/a.sql"] ∧
    (∀ p ∈ sqlFiles (hostOf "d" dirNamedSqlTree) "d",
      fails (demoEnv "d" dirNamedSqlTree) false p = false) ∧
    (main (demoEnv "d" dirNamedSqlTree) false ["d"]).1 = 1 ∧
    (main (demoEnv "d" dirNamedSqlTree) false ["d"]).2.stdout.getLast? =
      some "\n✗ 1 SQL errors found\n" := by
  decide

/-- C6, evaluated: in the directory `d` whose directory `x.sql` holds the valid
`a.sql`, after the invocations for `d` and for the directory `d/x.sql` no `.sql`
file has been processed and `validCount + len(errors)` is 1, the invocation for
the directory having appended a failure; at the end of the walk one `.sql` file
has been processed and the sum is 2. -/
theorem C6_directory_counted :
    (((visits (hostOf "d" dirNamedSqlTree) "d").take 2).filter Visit.isSqlFile).length = 0 ∧
    (stateAfter (history (demoEnv "d" dirNamedSqlTree) false "d") 2).validCount +
      (stateAfter (history (demoEnv "d" dirNamedSqlTree) false "d") 2).errors.length = 1 ∧
    (stateAfter (history (demoEnv "d" dirNamedSqlTree) false "d") 2).errors =
      [⟨"d/x.sql", "failed to read"⟩] ∧
    (history (demoEnv "d" dirNamedSqlTree) false "d").length = 3 ∧
    (sqlFiles (hostOf "d" dirNamedSqlTree) "d").length = 1 ∧
    (WalkDir (hostOf "d" dirNamedSqlTree) (walkFn (demoEnv "d" dirNamedSqlTree) false) "d"
      State.init).1.validCount +
      (WalkDir (hostOf "d" dirNamedSqlTree) (walkFn (demoEnv "d" dirNamedSqlTree) false) "d"
        State.init).1.errors.length = 2 := by
  decide

end Sqvalid
